import Mathlib

/-!
Verification of the download-scheduler core (orchestrator, adaptive rate
limiter, durable queue, retry wrapper) against its design document.

Shallow embedding conventions:
* timestamps (Python time.time values) are modelled as rationals (ℚ);
* Python deques/lists become Lean lists (deque front = list head);
* each Python function keeps its source name (snake case preserved
  where Lean allows it);
* Python int truncation of x * 0.7 (resp. x * 1.2) on nonnegative ints is
  modelled exactly as n * 7 / 10 (resp. n * 12 / 10) in ℕ.  The binary
  floating product can differ from the exact rational by one unit at a few
  boundary values (e.g. int(700 * 0.7) = 489); all bound theorems below are
  robust to this (they only need n * 7 / 10 ≤ n and x ≤ n * 12 / 10), and
  concrete evaluations are kept on values where the two agree.
-/

namespace Douyin

attribute [local semireducible] Rat.add Rat.sub Rat.mul Rat.inv

/-- Task type enumeration (strategies/base.py TaskType). -/
inductive TaskType where
  | video | image | music | user | mix | live
deriving DecidableEq, Repr

/-- Task status enumeration (strategies/base.py TaskStatus). -/
inductive TaskStatus where
  | pending | processing | completed | failed | retrying
deriving DecidableEq, Repr

/-- Download task record (strategies/base.py DownloadTask).  The metadata
dict is carried as an opaque serialized payload; no claim inspects it. -/
structure DownloadTask where
  task_id : String
  url : String
  task_type : TaskType
  priority : Int := 0
  retry_count : Nat := 0
  max_retries : Nat := 3
  status : TaskStatus := .pending
  metadata : String := ""
  created_at : ℚ := 0
  updated_at : ℚ := 0
  error_message : Option String := none
deriving DecidableEq, Repr

/-- DownloadTask.increment_retry: bumps the counter, stamps updated_at and
reports whether the task may still be retried (retry_count < max_retries
after the bump). -/
def increment_retry (t : DownloadTask) (now : ℚ) : DownloadTask × Bool :=
  let t1 := { t with retry_count := t.retry_count + 1, updated_at := now }
  (t1, decide (t1.retry_count < t1.max_retries))

/-! ## Rate limiter (core/rate_limiter.py) -/

/-- Rate limiting strategy enumeration (RateLimitStrategy). -/
inductive RateLimitStrategy where
  | fixed | adaptive | burst
deriving DecidableEq, Repr

/-- Limiter configuration (RateLimitConfig), defaults as in the source. -/
structure RateLimitConfig where
  max_per_second : Nat := 2
  max_per_minute : Nat := 30
  max_per_hour : Nat := 1000
  burst_size : Nat := 5
  strategy : RateLimitStrategy := .adaptive
  cooldown_time : ℚ := 60
deriving DecidableEq, Repr

/-- Mutable state of AdaptiveRateLimiter: the request/failure timestamp
deques (oldest first), the currently effective ceilings and the cooldown
deadline. -/
structure Limiter where
  config : RateLimitConfig
  requests : List ℚ := []
  failures : List ℚ := []
  current_max_per_second : Nat
  current_max_per_minute : Nat
  current_max_per_hour : Nat
  cooldown_until : ℚ := 0
deriving DecidableEq, Repr

/-- AdaptiveRateLimiter.__init__: fresh limiter with ceilings at the
configured maxima and no recorded activity. -/
def Limiter.init (c : RateLimitConfig) : Limiter :=
  { config := c
    current_max_per_second := c.max_per_second
    current_max_per_minute := c.max_per_minute
    current_max_per_hour := c.max_per_hour }

/-- Number of timestamps of l lying strictly inside the trailing window of
the given width, i.e. len([r for r in l if now - r < window]). -/
def recentCount (l : List ℚ) (now window : ℚ) : Nat :=
  (l.filter (fun r => now - r < window)).length

/-- AdaptiveRateLimiter._clean_old_records: pop from the front while the
front entry is older than 1 hour (requests) / 10 minutes (failures). -/
def clean_old_records (st : Limiter) (now : ℚ) : Limiter :=
  { st with
    requests := st.requests.dropWhile (fun r => decide (3600 < now - r))
    failures := st.failures.dropWhile (fun f => decide (600 < now - f)) }

/-- AdaptiveRateLimiter._can_proceed: true iff every horizon count is
strictly below its current ceiling (and, in burst mode, the 100 ms
micro-window count is below burst_size). -/
def can_proceed (st : Limiter) (now : ℚ) : Bool :=
  if st.current_max_per_second ≤ recentCount st.requests now 1 then false
  else if st.current_max_per_minute ≤ recentCount st.requests now 60 then false
  else if st.current_max_per_hour ≤ recentCount st.requests now 3600 then false
  else if st.config.strategy = .burst ∧
      st.config.burst_size ≤ recentCount st.requests now (1/10) then false
  else true

/-- AdaptiveRateLimiter._decrease_rate: shrink every ceiling to 0.7 of its
value, floored at 1 / 10 / 100. -/
def decrease_rate (st : Limiter) : Limiter :=
  { st with
    current_max_per_second := max 1 (st.current_max_per_second * 7 / 10)
    current_max_per_minute := max 10 (st.current_max_per_minute * 7 / 10)
    current_max_per_hour := max 100 (st.current_max_per_hour * 7 / 10) }

/-- AdaptiveRateLimiter._increase_rate: grow every ceiling to 1.2 of its
value, capped at the configured maximum. -/
def increase_rate (st : Limiter) : Limiter :=
  { st with
    current_max_per_second :=
      min st.config.max_per_second (st.current_max_per_second * 12 / 10)
    current_max_per_minute :=
      min st.config.max_per_minute (st.current_max_per_minute * 12 / 10)
    current_max_per_hour :=
      min st.config.max_per_hour (st.current_max_per_hour * 12 / 10) }

/-- AdaptiveRateLimiter._adjust_rate: with more than 10 requests in the
trailing minute, shrink when the trailing-minute failure ratio exceeds 0.3
and grow when it is below 0.05 on more than 20 requests. -/
def adjust_rate (st : Limiter) (now : ℚ) : Limiter :=
  let rf : Nat := recentCount st.failures now 60
  let rr : Nat := recentCount st.requests now 60
  if 10 < rr then
    if (3 : ℚ)/10 < (rf : ℚ) / (rr : ℚ) then decrease_rate st
    else if (rf : ℚ) / (rr : ℚ) < (1 : ℚ)/20 ∧ 20 < rr then increase_rate st
    else st
  else st

/-- AdaptiveRateLimiter._handle_failure: with 5 or more failures in the
trailing 10 seconds, set the cooldown deadline and shrink the ceilings. -/
def handle_failure (st : Limiter) (now : ℚ) : Limiter :=
  if 5 ≤ recentCount st.failures now 10 then
    decrease_rate { st with cooldown_until := now + st.config.cooldown_time }
  else st

/-- AdaptiveRateLimiter.record_failure: append a failure timestamp and, in
adaptive mode only, run the failure handler. -/
def record_failure (st : Limiter) (now : ℚ) : Limiter :=
  let st1 := { st with failures := st.failures ++ [now] }
  if st.config.strategy = .adaptive then handle_failure st1 now else st1

/-- Tail of acquire() once the wait loop has exited at clock value now:
append the permit timestamp and, in adaptive mode, reassess the ceilings. -/
def acquire_grant (st : Limiter) (now : ℚ) : Limiter :=
  let st1 := { st with requests := st.requests ++ [now] }
  if st.config.strategy = .adaptive then adjust_rate st1 now else st1

/-- AdaptiveRateLimiter._calculate_wait_time: minimal wait for the oldest
entry of a violated second/minute window to expire, defaulting to 0.1. -/
def calculate_wait_time (st : Limiter) (now : ℚ) : ℚ :=
  let recent_second := st.requests.filter (fun r => now - r < 1)
  let recent_minute := st.requests.filter (fun r => now - r < 60)
  let waits : List ℚ :=
    (if st.current_max_per_second ≤ recent_second.length then
      match recent_second.min? with
      | some oldest => [1 - (now - oldest)]
      | none => []
    else []) ++
    (if st.current_max_per_minute ≤ recent_minute.length then
      match recent_minute.min? with
      | some oldest => [60 - (now - oldest)]
      | none => []
    else [])
  match waits.min? with
  | some w => w
  | none => 1/10

/-- The wait loop of acquire(): clean, recheck, sleep the computed wait and
loop.  nowVar is the Python local now (stale after a cooldown sleep), real
is the actual clock; after the first in-loop sleep the two coincide.  The
fuel argument bounds the number of loop iterations modelled; none means the
modelled execution did not grant within the given fuel (or hit the
blocked-request early return).  On a grant it returns the real return time
and the final state. -/
def acquire_loop : Nat → Limiter → ℚ → ℚ → Option (ℚ × Limiter)
  | 0, _, _, _ => none
  | fuel + 1, st, nowVar, real =>
    let st1 := clean_old_records st nowVar
    if can_proceed st1 nowVar then some (real, acquire_grant st1 nowVar)
    else
      let w := calculate_wait_time st1 nowVar
      if 0 < w then acquire_loop fuel st1 (real + w) (real + w)
      else none

/-- AdaptiveRateLimiter.acquire called at clock value now: sleep out any
remaining cooldown first (the local now is not refreshed afterwards — the
source keeps the stale value), then run the wait loop. -/
def acquire (fuel : Nat) (st : Limiter) (now : ℚ) : Option (ℚ × Limiter) :=
  if st.cooldown_until > now then
    acquire_loop fuel { st with cooldown_until := 0 } now st.cooldown_until
  else
    acquire_loop fuel st now now

/-- One externally visible limiter event: an acquire() call that is granted
with no waiting at clock value t, or a record_failure() call at t. -/
inductive LimEvent where
  | grant (t : ℚ)
  | fail (t : ℚ)
deriving DecidableEq, Repr

/-- Run a sequence of limiter events.  A grant event requires the acquire
call to succeed immediately (no cooldown pending, checks pass at t); a
trace whose grant would have had to wait is rejected with none, so any
some-result is a genuine non-blocking execution of the source. -/
def runLimiter (st : Limiter) : List LimEvent → Option Limiter
  | [] => some st
  | .fail t :: es => runLimiter (record_failure st t) es
  | .grant t :: es =>
    if st.cooldown_until > t then none
    else
      let st1 := clean_old_records st t
      if can_proceed st1 t then runLimiter (acquire_grant st1 t) es
      else none

/-- Appending the timestamp now itself adds one to every trailing-window
count of positive width measured at now. -/
theorem recentCount_append_self (l : List ℚ) (now w : ℚ) (hw : 0 < w) :
    recentCount (l ++ [now]) now w = recentCount l now w + 1 := by
  unfold recentCount
  rw [List.filter_append, List.length_append]
  have hnow : now - now < w := by simpa
  simp [List.filter, hnow, hw]

/-- A true _can_proceed verdict means every horizon count is strictly below
its current ceiling. -/
theorem can_proceed_bounds (st : Limiter) (now : ℚ)
    (h : can_proceed st now = true) :
    recentCount st.requests now 1 < st.current_max_per_second ∧
    recentCount st.requests now 60 < st.current_max_per_minute ∧
    recentCount st.requests now 3600 < st.current_max_per_hour := by
  unfold can_proceed at h
  split_ifs at h with h1 h2 h3 h4
  omega

/-- The grant step only appends the permit timestamp to the request deque
(the adaptive reassessment touches ceilings, not the deque). -/
theorem acquire_grant_requests (st : Limiter) (now : ℚ) :
    (acquire_grant st now).requests = st.requests ++ [now] := by
  unfold acquire_grant adjust_rate decrease_rate increase_rate
  dsimp only
  split
  · split_ifs <;> rfl
  · rfl

/-- Concrete limiter trace on the default configuration: nine granted
permits at seconds 1–9, four failures at seconds 30–33, a granted permit at
59.5 and a final one at 60.  At the final grant the trailing-minute request
count reaches 11 with 4 failures (ratio 4/11 > 0.3), so the adaptive
reassessment shrinks the per-second ceiling from 2 to 1 right after the
permit is recorded. -/
def c1trace : List LimEvent :=
  [.grant 1, .grant 2, .grant 3, .grant 4, .grant 5, .grant 6, .grant 7,
   .grant 8, .grant 9, .fail 30, .fail 31, .fail 32, .fail 33,
   .grant (119/2), .grant 60]

/-- C1 (counterexample): the claim that at the moment acquire() returns
successfully every trailing-window permit count (new permit included) is
at most that horizon's current ceiling is false: after the concrete
non-blocking trace c1trace on the default configuration, the state in
which the final acquire() returns has 2 permits inside the trailing
1-second window while the current per-second ceiling is 1, because
_adjust_rate shrinks the ceilings after the permit is recorded. -/
theorem C1_counterexample :
    (runLimiter (Limiter.init {}) c1trace).map
      (fun st =>
        decide (st.current_max_per_second < recentCount st.requests 60 1))
      = some true := by decide

/-- C1 (amended): at the moment acquire() records the permit timestamp —
before the adaptive reassessment that may subsequently shrink the ceilings
below these counts — the number of recorded permit timestamps inside each
trailing window (1 s / 60 s / 3600 s), the new permit included, is at most
the ceiling in effect at that moment, for every limiter state whose wait
loop has passed the _can_proceed check. -/
theorem C1_grant_within_ceilings (st : Limiter) (now : ℚ)
    (h : can_proceed st now = true) :
    recentCount (acquire_grant st now).requests now 1
        ≤ st.current_max_per_second ∧
    recentCount (acquire_grant st now).requests now 60
        ≤ st.current_max_per_minute ∧
    recentCount (acquire_grant st now).requests now 3600
        ≤ st.current_max_per_hour := by
  obtain ⟨h1, h2, h3⟩ := can_proceed_bounds st now h
  rw [acquire_grant_requests]
  rw [recentCount_append_self _ _ _ (by norm_num),
    recentCount_append_self _ _ _ (by norm_num),
    recentCount_append_self _ _ _ (by norm_num)]
  omega

/-- Witness for C1: the fresh default limiter passes _can_proceed at time 0
and the amended bounds hold there. -/
theorem C1_grant_within_ceilings_witness :
    can_proceed (Limiter.init {}) 0 = true ∧
    (recentCount (acquire_grant (Limiter.init {}) 0).requests 0 1
        ≤ (Limiter.init {}).current_max_per_second ∧
      recentCount (acquire_grant (Limiter.init {}) 0).requests 0 60
        ≤ (Limiter.init {}).current_max_per_minute ∧
      recentCount (acquire_grant (Limiter.init {}) 0).requests 0 3600
        ≤ (Limiter.init {}).current_max_per_hour) :=
  ⟨by decide, C1_grant_within_ceilings (Limiter.init {}) 0 (by decide)⟩

/-- A granted acquire returns no earlier than the clock value the wait loop
was entered at: every loop iteration only moves the clock forward. -/
theorem acquire_loop_return_ge (fuel : Nat) (st : Limiter) (nowVar real ret : ℚ)
    (st2 : Limiter) (h : acquire_loop fuel st nowVar real = some (ret, st2)) :
    real ≤ ret := by
  induction fuel generalizing st nowVar real with
  | zero => simp [acquire_loop] at h
  | succ fuel ih =>
    unfold acquire_loop at h
    simp only at h
    split_ifs at h with hcan hw
    · exact le_of_eq (congrArg Prod.fst (Option.some.inj h))
    · have hrec := ih _ _ _ h
      linarith

/-- C4 (counterexample): the claim quantifies over every configured
strategy mode, but record_failure only runs the failure handler in
adaptive mode.  In FIXED mode, after five failures at seconds 0–4 (all
within the trailing 10 seconds) no cooldown begins (cooldown_until stays
0), no ceiling shrinks, and a subsequent acquire() at second 5 is granted
immediately instead of blocking for the cooldown duration — the trace
below only succeeds because the final grant passes every check with no
cooldown pending. -/
theorem C4_counterexample :
    (runLimiter (Limiter.init { strategy := .fixed })
        [.fail 0, .fail 1, .fail 2, .fail 3, .fail 4, .grant 5]).map
      (fun st => (st.cooldown_until, st.current_max_per_second,
        st.current_max_per_minute, st.current_max_per_hour))
      = some (0, 2, 30, 1000) := by decide

/-- C4 (amended, restricted to adaptive mode): in adaptive mode, when a
record_failure() call finds 5 or more failures within the trailing 10
seconds, a cooldown of the configured duration begins (cooldown_until
becomes now + cooldown_time), the three ceilings shrink to 0.7 of their
value floored at 1 / 10 / 100, and any subsequent acquire() call made
while the cooldown is pending returns no earlier than the cooldown
deadline, i.e. it blocks for at least the remaining cooldown duration. -/
theorem C4_adaptive_cooldown (st : Limiter) (now t ret : ℚ) (fuel : Nat)
    (hmode : st.config.strategy = .adaptive)
    (hcount : 5 ≤ recentCount (st.failures ++ [now]) now 10)
    (ht : t < (record_failure st now).cooldown_until)
    (hacq : (acquire fuel (record_failure st now) t).map Prod.fst
      = some ret) :
    (record_failure st now).cooldown_until = now + st.config.cooldown_time ∧
    (record_failure st now).current_max_per_second
        = max 1 (st.current_max_per_second * 7 / 10) ∧
    (record_failure st now).current_max_per_minute
        = max 10 (st.current_max_per_minute * 7 / 10) ∧
    (record_failure st now).current_max_per_hour
        = max 100 (st.current_max_per_hour * 7 / 10) ∧
    now + st.config.cooldown_time - t ≤ ret - t := by
  have hrf : record_failure st now
      = decrease_rate
          { st with
            failures := st.failures ++ [now]
            cooldown_until := now + st.config.cooldown_time } := by
    unfold record_failure handle_failure
    rw [if_pos hmode, if_pos (by simpa using hcount)]
  refine ⟨by rw [hrf]; rfl, by rw [hrf]; rfl, by rw [hrf]; rfl,
    by rw [hrf]; rfl, ?_⟩
  have hcd : (record_failure st now).cooldown_until
      = now + st.config.cooldown_time := by rw [hrf]; rfl
  unfold acquire at hacq
  rw [if_pos (by exact ht)] at hacq
  obtain ⟨⟨ret1, stf⟩, hpair, hfst⟩ := Option.map_eq_some'.mp hacq
  have hge := acquire_loop_return_ge _ _ _ _ _ _ hpair
  rw [hcd] at hge
  simp only at hfst
  subst hfst
  linarith

/-- Default adaptive limiter that has already recorded failures at seconds
0–3, used to witness C4. -/
def c4st : Limiter := { Limiter.init {} with failures := [0, 1, 2, 3] }

/-- Witness for C4: a fifth failure at second 4 on c4st sets the cooldown
deadline to 64, shrinks the ceilings, and an acquire() issued at second 10
only returns at second 64 — at least the remaining 54 seconds later. -/
theorem C4_adaptive_cooldown_witness :
    (c4st.config.strategy = RateLimitStrategy.adaptive ∧
      5 ≤ recentCount (c4st.failures ++ [4]) 4 10 ∧
      (10 : ℚ) < (record_failure c4st 4).cooldown_until ∧
      (acquire 1 (record_failure c4st 4) 10).map Prod.fst = some 64) ∧
    ((record_failure c4st 4).cooldown_until
        = 4 + c4st.config.cooldown_time ∧
      (record_failure c4st 4).current_max_per_second
        = max 1 (c4st.current_max_per_second * 7 / 10) ∧
      (record_failure c4st 4).current_max_per_minute
        = max 10 (c4st.current_max_per_minute * 7 / 10) ∧
      (record_failure c4st 4).current_max_per_hour
        = max 100 (c4st.current_max_per_hour * 7 / 10) ∧
      (4 : ℚ) + c4st.config.cooldown_time - 10 ≤ 64 - 10) :=
  ⟨⟨by decide, by decide, by decide, by decide⟩,
    C4_adaptive_cooldown c4st 4 10 64 1
      (by decide) (by decide) (by decide) (by decide)⟩

/-- One ceiling adjustment: every change the limiter ever makes to its
ceilings goes through _decrease_rate (from _handle_failure or
_adjust_rate) or _increase_rate (from _adjust_rate). -/
inductive RateAdj where
  | dec | inc
deriving DecidableEq, Repr

/-- Apply one ceiling adjustment. -/
def applyAdj (st : Limiter) : RateAdj → Limiter
  | .dec => decrease_rate st
  | .inc => increase_rate st

/-- Apply a sequence of ceiling adjustments in order. -/
def applyAdjs (st : Limiter) (l : List RateAdj) : Limiter :=
  l.foldl applyAdj st

/-- The three ceilings lie between their floors (1 / 10 / 100) and the
originally configured maxima. -/
def CeilingsInRange (st : Limiter) : Prop :=
  (1 ≤ st.current_max_per_second ∧
    st.current_max_per_second ≤ st.config.max_per_second) ∧
  (10 ≤ st.current_max_per_minute ∧
    st.current_max_per_minute ≤ st.config.max_per_minute) ∧
  (100 ≤ st.current_max_per_hour ∧
    st.current_max_per_hour ≤ st.config.max_per_hour)

/-- Truncated multiplication by 0.7 never exceeds the argument. -/
theorem mul7div10_le (n : Nat) : n * 7 / 10 ≤ n :=
  le_trans (Nat.div_le_div_right (by omega)) (le_of_eq (Nat.mul_div_cancel n (by omega)))

/-- Truncated multiplication by 1.2 is at least the argument. -/
theorem le_mul12div10 (n : Nat) : n ≤ n * 12 / 10 :=
  le_trans (le_of_eq (Nat.mul_div_cancel n (by omega)).symm)
    (Nat.div_le_div_right (by omega))

/-- A single adjustment keeps in-range ceilings in range (the adjustment
does not touch the configuration). -/
theorem applyAdj_inRange (st : Limiter) (a : RateAdj)
    (h : CeilingsInRange st) : CeilingsInRange (applyAdj st a) := by
  obtain ⟨⟨h1, h2⟩, ⟨h3, h4⟩, h5, h6⟩ := h
  have d1 := mul7div10_le st.current_max_per_second
  have d2 := mul7div10_le st.current_max_per_minute
  have d3 := mul7div10_le st.current_max_per_hour
  have i1 := le_mul12div10 st.current_max_per_second
  have i2 := le_mul12div10 st.current_max_per_minute
  have i3 := le_mul12div10 st.current_max_per_hour
  cases a <;>
    simp only [applyAdj, decrease_rate, increase_rate, CeilingsInRange] <;>
    refine ⟨⟨?_, ?_⟩, ⟨?_, ?_⟩, ?_, ?_⟩ <;> simp <;> omega

/-- C8: for every configuration whose maxima respect the floors
(max_per_second ≥ 1, max_per_minute ≥ 10, max_per_hour ≥ 100 — the claim's
"range from floor to configured maximum" presupposes this) and every
sequence of shrink/grow adjustments applied from the freshly configured
limiter, each horizon's current ceiling stays within the inclusive range
from its floor to the originally configured maximum; in particular growth
never raises a ceiling above the original configuration. -/
theorem C8_ceilings_bounded (c : RateLimitConfig) (l : List RateAdj)
    (h1 : 1 ≤ c.max_per_second) (h2 : 10 ≤ c.max_per_minute)
    (h3 : 100 ≤ c.max_per_hour) :
    CeilingsInRange (applyAdjs (Limiter.init c) l) := by
  have main : ∀ (m : List RateAdj) (st : Limiter), CeilingsInRange st →
      CeilingsInRange (applyAdjs st m) := by
    intro m
    induction m with
    | nil => intro st h; exact h
    | cons a tl ih =>
      intro st h
      exact ih (applyAdj st a) (applyAdj_inRange st a h)
  exact main l (Limiter.init c) ⟨⟨h1, le_refl _⟩, ⟨h2, le_refl _⟩, h3, le_refl _⟩

/-- Witness for C8: on the default configuration, a shrink followed by a
grow and another shrink leaves all three ceilings inside their ranges. -/
theorem C8_ceilings_bounded_witness :
    (1 ≤ (({} : RateLimitConfig)).max_per_second ∧
      10 ≤ (({} : RateLimitConfig)).max_per_minute ∧
      100 ≤ (({} : RateLimitConfig)).max_per_hour) ∧
    CeilingsInRange (applyAdjs (Limiter.init {}) [.dec, .inc, .dec]) :=
  ⟨⟨by decide, by decide, by decide⟩,
    C8_ceilings_bounded {} [.dec, .inc, .dec]
      (by decide) (by decide) (by decide)⟩

/-! ## Retry strategy (strategies/retry_strategy.py) -/

/-- True iff the needle list occurs at the very head of the hay list. -/
def leadsWith : List Char → List Char → Bool
  | _, [] => true
  | [], _ :: _ => false
  | h :: hs, n :: ns => h == n && leadsWith hs ns

/-- True iff the needle list occurs contiguously anywhere inside hay. -/
def hasSub : List Char → List Char → Bool
  | [], needle => needle.isEmpty
  | h :: t, needle => leadsWith (h :: t) needle || hasSub t needle

/-- Python substring membership, needle in hay. -/
def strContains (hay needle : String) : Bool :=
  hasSub hay.data needle.data

/-- Python str.lower, modelled as the character-wise lowercase map (every
substring the classifier tests is caseless or ASCII). -/
def pyLower (s : String) : String :=
  ⟨s.data.map Char.toLower⟩

/-- The allow-list of RetryStrategy._should_retry (retryable_errors). -/
def retryable_errors : List String :=
  ["timeout", "connection", "network", "429", "503", "502", "504",
   "空响应", "返回空", "empty response", "temporary"]

/-- The deny-list of RetryStrategy._should_retry (non_retryable_errors). -/
def non_retryable_errors : List String :=
  ["404", "403", "401", "invalid", "not found", "deleted", "已删除", "不存在"]

/-- RetryStrategy._should_retry: no retry once attempt reaches
max_retries - 1; a missing or empty message is retried; otherwise the
lowercased message is matched against the allow-list first, then the
deny-list, and unrecognized messages default to retry. -/
def should_retry (self_max : Nat) (errMsg : Option String) (attempt : Nat) :
    Bool :=
  if self_max ≤ attempt + 1 then false
  else if (errMsg.getD "").isEmpty then true
  else
    let el := pyLower (errMsg.getD "")
    if retryable_errors.any (fun e => strContains el e) then true
    else if non_retryable_errors.any (fun e => strContains el e) then false
    else true

/-- Outcome of one call into the wrapped strategy: a successful result, a
failed result carrying error_message, or a raised exception. -/
inductive AttemptOutcome where
  | ok
  | fail (msg : Option String)
  | exc (msg : String)

/-- Result of RetryStrategy.download: the task object as left by the call
(the source mutates it in place) plus the returned success flag and error
message. -/
structure RetryPass where
  task : DownloadTask
  success : Bool
  error_message : Option String

/-- The terminal failure message of RetryStrategy.download (重试 n
次后仍然失败: last_error, with Python printing None for a missing
error). -/
def fail_message (self_max : Nat) (lastErr : Option String) : String :=
  "重试 " ++ toString self_max ++ " 次后仍然失败: " ++ lastErr.getD "None"

/-- The status update at the head of each loop iteration of
RetryStrategy.download: from the second attempt on the task is stamped
RETRYING. -/
def mark_retrying (attempt : Nat) (task : DownloadTask) : DownloadTask :=
  if 0 < attempt then { task with status := .retrying } else task

/-- The attempt loop of RetryStrategy.download.  oracle gives the outcome
of the strategy call on each attempt index; attempt counts from 0 up to
self_max (the wrapper's own max_retries).  A failed result consults
_should_retry; on retry the task's retry_count is incremented (with no
check against the task's own max_retries) and the loop continues; a
non-retryable result is returned as is.  An exception retries while
attempts remain, else falls to the post-loop terminal-failure path that
stamps status FAILED. -/
def retry_download_aux (self_max : Nat) (oracle : Nat → AttemptOutcome) :
    Nat → Nat → DownloadTask → Option String → RetryPass
  | fuel + 1, attempt, task, lastErr =>
    if attempt < self_max then
      let task1 := mark_retrying attempt task
      match oracle attempt with
      | .ok => { task := task1, success := true, error_message := none }
      | .fail msg =>
        if should_retry self_max msg attempt then
          retry_download_aux self_max oracle fuel (attempt + 1)
            { task1 with retry_count := task1.retry_count + 1 } msg
        else { task := task1, success := false, error_message := msg }
      | .exc m =>
        if attempt + 1 < self_max then
          retry_download_aux self_max oracle fuel (attempt + 1)
            { task1 with retry_count := task1.retry_count + 1 } (some m)
        else { task := { task1 with status := .failed }, success := false,
               error_message := some (fail_message self_max (some m)) }
    else { task := { task with status := .failed }, success := false,
           error_message := some (fail_message self_max lastErr) }
  | 0, _, task, lastErr =>
    { task := { task with status := .failed }, success := false,
      error_message := some (fail_message self_max lastErr) }

/-- RetryStrategy.download's attempt loop entered at the given attempt
index: the structural fuel is the number of loop iterations still
permitted by range(max_retries), i.e. self_max - attempt; a fuel of zero
is exactly the for-loop being exhausted, which lands in the post-loop
terminal-failure path. -/
def retry_download_loop (self_max : Nat) (oracle : Nat → AttemptOutcome)
    (attempt : Nat) (task : DownloadTask) (lastErr : Option String) :
    RetryPass :=
  retry_download_aux self_max oracle (self_max - attempt) attempt task lastErr

/-- Where the orchestrator worker routes a finished task. -/
inductive WorkerDisposition where
  | completedTask (t : DownloadTask)
  | requeued (t : DownloadTask)
  | failedTask (t : DownloadTask)
deriving DecidableEq, Repr

/-- Result handling of DownloadOrchestrator._worker: a successful result
goes to completed_tasks; on failure the task's increment_retry decides
between re-enqueueing onto pending_queue and appending to the terminal
failed_tasks list. -/
def worker_process_result (task : DownloadTask) (success : Bool) (now : ℚ) :
    WorkerDisposition :=
  if success then .completedTask task
  else
    let r := increment_retry task now
    if r.2 then .requeued r.1 else .failedTask r.1

/-- Head occurrence is preserved by mapping a function over both lists. -/
theorem leadsWith_map (f : Char → Char) :
    ∀ (nd hay : List Char), leadsWith hay nd = true →
      leadsWith (hay.map f) (nd.map f) = true := by
  intro nd
  induction nd with
  | nil => intro hay _; cases hay <;> rfl
  | cons n ns ih =>
    intro hay h
    cases hay with
    | nil => simp [leadsWith] at h
    | cons c cs =>
      simp only [leadsWith, Bool.and_eq_true, beq_iff_eq] at h
      simp only [List.map_cons, leadsWith, Bool.and_eq_true, beq_iff_eq]
      exact ⟨congrArg f h.1, ih cs h.2⟩

/-- Substring occurrence is preserved by mapping a function over both
lists. -/
theorem hasSub_map (f : Char → Char) :
    ∀ (hay nd : List Char), hasSub hay nd = true →
      hasSub (hay.map f) (nd.map f) = true := by
  intro hay
  induction hay with
  | nil =>
    intro nd h
    simp only [hasSub, List.isEmpty_iff] at h
    subst h
    rfl
  | cons c cs ih =>
    intro nd h
    simp only [hasSub, Bool.or_eq_true] at h ⊢
    rcases h with h | h
    · exact Or.inl (leadsWith_map f nd (c :: cs) h)
    · exact Or.inr (ih nd h)

/-- A needle whose characters are fixed by lowercasing still occurs after
the haystack is lowercased. -/
theorem strContains_pyLower (msg nd : String)
    (hfix : nd.data.map Char.toLower = nd.data)
    (h : strContains msg nd = true) :
    strContains (pyLower msg) nd = true := by
  unfold strContains pyLower
  have hm := hasSub_map Char.toLower msg.data nd.data h
  rwa [hfix] at hm

/-- C5 (counterexample): the claim that a message containing "404" never
leads to a retry regardless of other substrings is false: the allow-list
is consulted before the deny-list, so the message 404 timeout — which
contains 404 — is classified retryable on a first attempt with two
attempts remaining. -/
theorem C5_counterexample :
    strContains "404 timeout" "404" = true ∧
    should_retry 3 (some "404 timeout") 0 = true := by
  exact ⟨by decide, by decide⟩

/-- C5 (amended): for a failed attempt with remaining attempts left, an
error message containing "timeout" always leads to a retry; and an error
message containing "404" never leads to a retry provided the message
contains none of the allow-list substrings (the allow-list is checked
first and wins over the deny-list). -/
theorem C5_classification :
    (∀ (self_max attempt : Nat) (msg : String), attempt + 1 < self_max →
        strContains msg "timeout" = true →
        should_retry self_max (some msg) attempt = true) ∧
    (∀ (self_max attempt : Nat) (msg : String),
        strContains msg "404" = true →
        (∀ e ∈ retryable_errors, strContains (pyLower msg) e = false) →
        should_retry self_max (some msg) attempt = false) := by
  constructor
  · intro self_max attempt msg hlt hto
    unfold should_retry
    rw [if_neg (by omega)]
    by_cases hemp : (some msg : Option String).getD "" |>.isEmpty
    · rw [if_pos hemp]
    · rw [if_neg hemp]
      simp only
      rw [if_pos ?pos]
      case pos =>
        refine List.any_eq_true.mpr ⟨"timeout", by decide, ?_⟩
        exact strContains_pyLower msg "timeout" (by decide) hto
  · intro self_max attempt msg h404 hall
    unfold should_retry
    by_cases hstop : self_max ≤ attempt + 1
    · rw [if_pos hstop]
    · rw [if_neg hstop]
      have hne0 : msg ≠ "" := by
        intro he
        rw [he] at h404
        exact absurd h404 (by decide)
      rw [if_neg ?notempty]
      case notempty =>
        simp only [String.isEmpty_iff]
        exact hne0
      simp only
      rw [if_neg ?noallow, if_pos ?deny]
      case noallow =>
        intro hany
        obtain ⟨e, he, hc⟩ := List.any_eq_true.mp hany
        simp only [Option.getD_some] at hc
        rw [hall e he] at hc
        exact absurd hc (by decide)
      case deny =>
        refine List.any_eq_true.mpr ⟨"404", by decide, ?_⟩
        simp only [Option.getD_some]
        exact strContains_pyLower msg "404" (by decide) h404

/-- Witness for C5: connection timeout with two attempts left is retried;
404 not found is never retried (it matches no allow-list entry). -/
theorem C5_classification_witness :
    ((0 : Nat) + 1 < 3 ∧ strContains "connection timeout" "timeout" = true ∧
      should_retry 3 (some "connection timeout") 0 = true) ∧
    (strContains "404 not found" "404" = true ∧
      should_retry 5 (some "404 not found") 0 = false) :=
  ⟨⟨by decide, by decide,
      C5_classification.1 3 0 "connection timeout" (by decide) (by decide)⟩,
    ⟨by decide,
      C5_classification.2 5 0 "404 not found" (by decide) (by decide)⟩⟩

/-- The retry loop never decreases the task's retry counter and never
touches its retry ceiling. -/
theorem retry_download_aux_retry_count (self_max : Nat)
    (oracle : Nat → AttemptOutcome) :
    ∀ (fuel attempt : Nat) (task : DownloadTask) (lastErr : Option String),
      task.retry_count ≤
          (retry_download_aux self_max oracle fuel attempt task lastErr
            ).task.retry_count ∧
        (retry_download_aux self_max oracle fuel attempt task lastErr
            ).task.max_retries = task.max_retries := by
  have hmark_rc : ∀ (attempt : Nat) (task : DownloadTask),
      (mark_retrying attempt task).retry_count = task.retry_count := by
    intro attempt task
    unfold mark_retrying
    split_ifs <;> rfl
  have hmark_max : ∀ (attempt : Nat) (task : DownloadTask),
      (mark_retrying attempt task).max_retries = task.max_retries := by
    intro attempt task
    unfold mark_retrying
    split_ifs <;> rfl
  intro fuel
  induction fuel with
  | zero => intro attempt task lastErr; exact ⟨le_refl _, rfl⟩
  | succ n ih =>
    intro attempt task lastErr
    unfold retry_download_aux
    by_cases hlt : attempt < self_max
    · rw [if_pos hlt]
      simp only
      cases horacle : oracle attempt with
      | ok => exact ⟨le_of_eq (hmark_rc attempt task).symm, hmark_max attempt task⟩
      | fail msg =>
        dsimp only
        split_ifs with hsr
        · obtain ⟨ihc, ihm⟩ := ih (attempt + 1)
            { mark_retrying attempt task with
              retry_count := (mark_retrying attempt task).retry_count + 1 } msg
          refine ⟨le_trans ?_ ihc, ?_⟩
          · simp only
            rw [hmark_rc attempt task]
            omega
          · rw [ihm]
            simp only
            exact hmark_max attempt task
        · exact ⟨le_of_eq (hmark_rc attempt task).symm, hmark_max attempt task⟩
      | exc m =>
        dsimp only
        split_ifs with hcont
        · obtain ⟨ihc, ihm⟩ := ih (attempt + 1)
            { mark_retrying attempt task with
              retry_count := (mark_retrying attempt task).retry_count + 1 } (some m)
          refine ⟨le_trans ?_ ihc, ?_⟩
          · simp only
            rw [hmark_rc attempt task]
            omega
          · rw [ihm]
            simp only
            exact hmark_max attempt task
        · exact ⟨le_of_eq (hmark_rc attempt task).symm, hmark_max attempt task⟩
    · rw [if_neg hlt]
      exact ⟨le_refl _, rfl⟩

/-- Fresh work unit used by the C2 counterexample (default max_retries
3). -/
def c2task : DownloadTask := { task_id := "t", url := "u", task_type := .video }

/-- First orchestrator round of the C2 counterexample: the wrapped
strategy fails non-retryably ("404"), so the retry wrapper returns with
retry_count untouched and the worker increments it to 1 and re-enqueues. -/
def c2pass1 : RetryPass :=
  retry_download_loop 3 (fun _ => .fail (some "404")) 0 c2task none

/-- The task as re-enqueued after the first round. -/
def c2t1 : DownloadTask := (increment_retry c2pass1.task 1).1

/-- Second orchestrator round: the strategy fails retryably ("timeout")
on every attempt, so the retry wrapper itself increments retry_count
twice (to 3) before giving up, and the worker's own increment then pushes
it to 4. -/
def c2pass2 : RetryPass :=
  retry_download_loop 3 (fun _ => .fail (some "timeout")) 0 c2t1 none

/-- The task as it lands in the failed collection after the second
round. -/
def c2t2 : DownloadTask := (increment_retry c2pass2.task 2).1

/-- C2 (counterexample): the claim that retry_count never exceeds
max_retries is false: a unit with max_retries = 3 that fails one round
non-retryably (worker increment to 1, re-enqueued) and then one round
with retryable timeouts ends in the terminal failed collection with
retry_count = 4 > 3, because RetryStrategy.download increments the same
counter as the orchestrator worker without consulting the task's
ceiling. -/
theorem C2_counterexample :
    worker_process_result c2pass1.task c2pass1.success 1 = .requeued c2t1 ∧
    worker_process_result c2pass2.task c2pass2.success 2 = .failedTask c2t2 ∧
    c2t2.max_retries = 3 ∧ c2t2.retry_count = 4 := by
  exact ⟨by decide, by decide, by decide, by decide⟩

/-- C2 (amended): a unit's retry_count is monotonically non-decreasing —
both through RetryStrategy.download (which never lowers it and never
changes max_retries) and through the worker's increment_retry — and the
worker re-enqueues a failed unit exactly when the post-increment
retry_count is still below max_retries, otherwise appending it to the
terminal failed collection; retry_count may however end up above
max_retries because the retry wrapper's increments bypass the ceiling
check (see the counterexample). -/
theorem C2_retry_count_discipline :
    (∀ (self_max : Nat) (oracle : Nat → AttemptOutcome) (attempt : Nat)
        (task : DownloadTask) (lastErr : Option String),
      task.retry_count ≤
          (retry_download_loop self_max oracle attempt task lastErr
            ).task.retry_count ∧
        (retry_download_loop self_max oracle attempt task lastErr
            ).task.max_retries = task.max_retries) ∧
    (∀ (task : DownloadTask) (now : ℚ),
      task.retry_count < (increment_retry task now).1.retry_count ∧
        (worker_process_result task false now
            = .requeued (increment_retry task now).1
          ↔ (increment_retry task now).1.retry_count < task.max_retries) ∧
        (worker_process_result task false now
            = .failedTask (increment_retry task now).1
          ↔ task.max_retries ≤ (increment_retry task now).1.retry_count)) := by
  constructor
  · intro self_max oracle attempt task lastErr
    exact retry_download_aux_retry_count self_max oracle
      (self_max - attempt) attempt task lastErr
  · intro task now
    refine ⟨by simp [increment_retry], ?_, ?_⟩
    · unfold worker_process_result increment_retry
      by_cases h : task.retry_count + 1 < task.max_retries
      · simp [h]
      · simp [h]
    · unfold worker_process_result increment_retry
      by_cases h : task.retry_count + 1 < task.max_retries
      · simp [h]
      · simp [h]
        omega

/-! ## Durable queue (core/queue_manager.py) -/

/-- One row of the tasks table (persisted fields of a work unit).
metadata and result are carried as opaque serialized strings. -/
structure TaskRecord where
  task_id : String
  url : String
  task_type : TaskType
  priority : Int
  status : TaskStatus
  retry_count : Nat
  max_retries : Nat
  metadata : String
  created_at : ℚ
  updated_at : ℚ
  completed_at : Option ℚ := none
  error_message : Option String := none
  result : Option String := none
deriving DecidableEq, Repr

/-- State of PersistentQueue: the tasks table, the bounded in-memory
delivery channel (an asyncio.Queue, FIFO with head at the front) and its
capacity. -/
structure PQState where
  db : List TaskRecord
  queue : List DownloadTask
  max_size : Nat
deriving DecidableEq, Repr

/-- PersistentQueue._row_to_task: rebuild a DownloadTask from the
persisted columns (task_id, url, task_type, priority, retry_count,
max_retries, metadata, created_at); status and updated_at take the
dataclass defaults, so every restored task comes out PENDING. -/
def row_to_task (r : TaskRecord) : DownloadTask :=
  { task_id := r.task_id, url := r.url, task_type := r.task_type,
    priority := r.priority, retry_count := r.retry_count,
    max_retries := r.max_retries, metadata := r.metadata,
    created_at := r.created_at }

/-- The row written by PersistentQueue.add_task: INSERT OR REPLACE of the
ten columns; the columns not listed (completed_at, error_message, result)
are NULL in the replacing row. -/
def task_to_record (t : DownloadTask) : TaskRecord :=
  { task_id := t.task_id, url := t.url, task_type := t.task_type,
    priority := t.priority, status := t.status,
    retry_count := t.retry_count, max_retries := t.max_retries,
    metadata := t.metadata, created_at := t.created_at,
    updated_at := t.updated_at }

/-- INSERT OR REPLACE on the primary key task_id. -/
def upsert (db : List TaskRecord) (r : TaskRecord) : List TaskRecord :=
  if db.any (fun x => x.task_id == r.task_id) then
    db.map (fun x => if x.task_id == r.task_id then r else x)
  else db ++ [r]

/-- The UPDATE of _restore_tasks: every PROCESSING row is forced back to
PENDING and its updated_at stamped. -/
def reset_processing (db : List TaskRecord) (now : ℚ) : List TaskRecord :=
  db.map (fun r =>
    if r.status = .processing then
      { r with status := .pending, updated_at := now }
    else r)

/-- The WHERE clause of the recovery SELECT. -/
def pending_or_retrying (r : TaskRecord) : Bool :=
  r.status == .pending || r.status == .retrying

/-- The ORDER BY priority DESC, created_at ASC relation of the recovery
SELECT, as a Bool. -/
def restoreLE (a b : TaskRecord) : Bool :=
  decide (b.priority < a.priority) ||
    (a.priority == b.priority && decide (a.created_at ≤ b.created_at))

/-- Ordered insert for the recovery sort. -/
def insertSorted (le : TaskRecord → TaskRecord → Bool) (x : TaskRecord) :
    List TaskRecord → List TaskRecord
  | [] => [x]
  | y :: ys => if le x y then x :: y :: ys else y :: insertSorted le x ys

/-- Sorting of the recovery SELECT (the engine's choice among rows tied on
both keys is unspecified, so any sort realizing the two keys models it). -/
def sortRecords (le : TaskRecord → TaskRecord → Bool) :
    List TaskRecord → List TaskRecord
  | [] => []
  | x :: xs => insertSorted le x (sortRecords le xs)

/-- PersistentQueue._restore_tasks on a fresh (empty-channel) queue:
force PROCESSING rows back to PENDING, select PENDING/RETRYING rows in
priority-then-creation order, and put them into the delivery channel one
by one, stopping silently when the channel is full. -/
def restore_tasks (db : List TaskRecord) (now : ℚ) (max_size : Nat) :
    PQState :=
  let db1 := reset_processing db now
  let selected := sortRecords restoreLE (db1.filter pending_or_retrying)
  { db := db1, queue := (selected.take max_size).map row_to_task,
    max_size := max_size }

/-- Ordered insert only rearranges: the result is a permutation of the
element consed onto the list. -/
theorem insertSorted_perm (le : TaskRecord → TaskRecord → Bool)
    (x : TaskRecord) : ∀ l : List TaskRecord,
    (insertSorted le x l).Perm (x :: l) := by
  intro l
  induction l with
  | nil => exact List.Perm.refl _
  | cons y ys ih =>
    unfold insertSorted
    split_ifs
    · exact List.Perm.refl _
    · exact (List.Perm.cons y ih).trans (List.Perm.swap x y ys)

/-- The recovery sort is a permutation of its input. -/
theorem sortRecords_perm (le : TaskRecord → TaskRecord → Bool) :
    ∀ l : List TaskRecord, (sortRecords le l).Perm l := by
  intro l
  induction l with
  | nil => exact List.Perm.refl _
  | cons x xs ih =>
    exact (insertSorted_perm le x (sortRecords le xs)).trans
      (List.Perm.cons x ih)

/-- The recovery ordering decoded: higher priority first, ties by earlier
creation time. -/
theorem restoreLE_iff (a b : TaskRecord) :
    restoreLE a b = true ↔
      (b.priority < a.priority ∨
        (a.priority = b.priority ∧ a.created_at ≤ b.created_at)) := by
  unfold restoreLE
  simp [Bool.or_eq_true, Bool.and_eq_true, beq_iff_eq]

/-- The recovery ordering is total. -/
theorem restoreLE_total (a b : TaskRecord) (h : restoreLE a b = false) :
    restoreLE b a = true := by
  rw [← Bool.not_eq_true, restoreLE_iff] at h
  rw [restoreLE_iff]
  push_neg at h
  obtain ⟨h1, h2⟩ := h
  rcases eq_or_lt_of_le h1 with heq | hlt
  · exact Or.inr ⟨heq.symm, le_of_lt (h2 heq)⟩
  · exact Or.inl hlt

/-- The recovery ordering is transitive. -/
theorem restoreLE_trans (a b c : TaskRecord) (h1 : restoreLE a b = true)
    (h2 : restoreLE b c = true) : restoreLE a c = true := by
  rw [restoreLE_iff] at h1 h2 ⊢
  rcases h1 with h1 | ⟨h1, h1c⟩ <;> rcases h2 with h2 | ⟨h2, h2c⟩
  · exact Or.inl (lt_trans h2 h1)
  · exact Or.inl (h2 ▸ h1)
  · exact Or.inl (h1 ▸ h2)
  · exact Or.inr ⟨h1.trans h2, h1c.trans h2c⟩

/-- Ordered insert into a list sorted by the recovery ordering stays
sorted. -/
theorem insertSorted_pairwise (x : TaskRecord) :
    ∀ l : List TaskRecord,
    l.Pairwise (fun a b => restoreLE a b = true) →
    (insertSorted restoreLE x l).Pairwise
      (fun a b => restoreLE a b = true) := by
  intro l
  induction l with
  | nil => intro _; simp [insertSorted]
  | cons y ys ih =>
    intro hl
    rw [List.pairwise_cons] at hl
    obtain ⟨hy, hys⟩ := hl
    unfold insertSorted
    split_ifs with hxy
    · refine List.pairwise_cons.mpr ⟨?_, List.pairwise_cons.mpr ⟨hy, hys⟩⟩
      intro z hz
      rcases List.mem_cons.mp hz with rfl | hz
      · exact hxy
      · exact restoreLE_trans x y z hxy (hy z hz)
    · refine List.pairwise_cons.mpr ⟨?_, ih hys⟩
      intro z hz
      rcases List.mem_cons.mp
          ((insertSorted_perm restoreLE x ys).mem_iff.mp hz) with heq | hz
      · rw [heq]
        exact restoreLE_total x y (by simpa using hxy)
      · exact hy z hz

/-- The recovery sort produces a list sorted by the recovery ordering. -/
theorem sortRecords_pairwise : ∀ l : List TaskRecord,
    (sortRecords restoreLE l).Pairwise (fun a b => restoreLE a b = true) := by
  intro l
  induction l with
  | nil => simp [sortRecords]
  | cons x xs ih => exact insertSorted_pairwise x (sortRecords restoreLE xs) ih

/-- In a store holding only PROCESSING and PENDING rows, the two filters
partition the store. -/
theorem length_filter_partition (db : List TaskRecord)
    (hstat : ∀ r ∈ db, r.status = .processing ∨ r.status = .pending) :
    (db.filter (fun r => r.status == .processing)).length
      + (db.filter (fun r => r.status == .pending)).length = db.length := by
  induction db with
  | nil => rfl
  | cons r t ih =>
    have hr := hstat r (List.mem_cons_self r t)
    have ht : ∀ x ∈ t, x.status = .processing ∨ x.status = .pending :=
      fun x hx => hstat x (List.mem_cons_of_mem r hx)
    have iht := ih ht
    rcases hr with hr | hr
    · have e1 : (r.status == TaskStatus.processing) = true := by
        rw [hr]; decide
      have e2 : (r.status == TaskStatus.pending) = false := by
        rw [hr]; decide
      simp only [List.filter, e1, e2, List.length_cons]
      omega
    · have e1 : (r.status == TaskStatus.processing) = false := by
        rw [hr]; decide
      have e2 : (r.status == TaskStatus.pending) = true := by
        rw [hr]; decide
      simp only [List.filter, e1, e2, List.length_cons]
      omega

/-- Priority-then-creation delivery order on work units: higher priority
first, ties broken by earlier creation time. -/
def PrioOrder (a b : DownloadTask) : Prop :=
  b.priority < a.priority ∨
    (a.priority = b.priority ∧ a.created_at ≤ b.created_at)

/-- C3: startup recovery on a store of N PROCESSING and M PENDING rows
with N + M within channel capacity first forces every PROCESSING row back
to PENDING, then delivers exactly N + M units — each stored row exactly
once (the delivered ids are a permutation of the stored ids), every
delivered unit PENDING, in priority-descending, creation-ascending
order. -/
theorem C3_recovery (db : List TaskRecord) (now : ℚ) (cap : Nat)
    (hstat : ∀ r ∈ db, r.status = .processing ∨ r.status = .pending)
    (hcap : db.length ≤ cap) :
    (restore_tasks db now cap).queue.length
        = (db.filter (fun r => r.status == .processing)).length
          + (db.filter (fun r => r.status == .pending)).length ∧
    ((restore_tasks db now cap).queue.map (fun t => t.task_id)).Perm
        (db.map (fun r => r.task_id)) ∧
    (∀ t ∈ (restore_tasks db now cap).queue, t.status = .pending) ∧
    (restore_tasks db now cap).queue.Pairwise PrioOrder := by
  have hall : ∀ r ∈ reset_processing db now, r.status = .pending := by
    intro r hr
    obtain ⟨x, hx, rfl⟩ := List.mem_map.mp hr
    rcases hstat x hx with h | h <;> simp [h]
  have hfilter :
      (reset_processing db now).filter pending_or_retrying
        = reset_processing db now := by
    refine List.filter_eq_self.mpr ?_
    intro r hr
    rw [pending_or_retrying, hall r hr]
    rfl
  have hperm :
      (sortRecords restoreLE
          ((reset_processing db now).filter pending_or_retrying)).Perm
        (reset_processing db now) := by
    rw [hfilter]
    exact sortRecords_perm restoreLE (reset_processing db now)
  have hlen1 : (reset_processing db now).length = db.length :=
    List.length_map db _
  have hlen2 :
      (sortRecords restoreLE
          ((reset_processing db now).filter pending_or_retrying)).length
        = db.length := by
    rw [hperm.length_eq, hlen1]
  have htake :
      (sortRecords restoreLE
          ((reset_processing db now).filter pending_or_retrying)).take cap
        = sortRecords restoreLE
            ((reset_processing db now).filter pending_or_retrying) :=
    List.take_of_length_le (by omega)
  have hqueue : (restore_tasks db now cap).queue
      = (sortRecords restoreLE
          ((reset_processing db now).filter pending_or_retrying)).map
            row_to_task := by
    unfold restore_tasks
    simp only
    rw [htake]
  refine ⟨?_, ?_, ?_, ?_⟩
  · rw [hqueue, List.length_map, hlen2,
      length_filter_partition db hstat]
  · rw [hqueue, List.map_map]
    have hcomp :
        ((fun t : DownloadTask => t.task_id) ∘ row_to_task)
          = fun r : TaskRecord => r.task_id := rfl
    rw [hcomp]
    refine (hperm.map (fun r : TaskRecord => r.task_id)).trans ?_
    have : (reset_processing db now).map (fun r => r.task_id)
        = db.map (fun r => r.task_id) := by
      unfold reset_processing
      rw [List.map_map]
      refine List.map_congr_left ?_
      intro r _
      simp only [Function.comp]
      split_ifs <;> rfl
    rw [this]
  · intro t ht
    rw [hqueue] at ht
    obtain ⟨r, _, rfl⟩ := List.mem_map.mp ht
    rfl
  · rw [hqueue]
    refine List.pairwise_map.mpr ?_
    refine List.Pairwise.imp ?_ (sortRecords_pairwise _)
    intro a b hab
    rcases (restoreLE_iff a b).mp hab with h | h
    · exact Or.inl h
    · exact Or.inr h

/-- Concrete two-row store for the C3 witness: one interrupted PROCESSING
row (high priority) and one PENDING row. -/
def c3db : List TaskRecord :=
  [{ task_id := "p1", url := "u1", task_type := .video, priority := 1,
     status := .processing, retry_count := 0, max_retries := 3,
     metadata := "", created_at := 0, updated_at := 0 },
   { task_id := "p2", url := "u2", task_type := .image, priority := 3,
     status := .pending, retry_count := 0, max_retries := 3,
     metadata := "", created_at := 1, updated_at := 1 }]

/-- Witness for C3: recovering the two-row store at capacity 100 delivers
both units, PENDING, with the priority-3 row first. -/
theorem C3_recovery_witness :
    ((∀ r ∈ c3db, r.status = .processing ∨ r.status = .pending) ∧
      c3db.length ≤ 100) ∧
    ((restore_tasks c3db 5 100).queue.length
        = (c3db.filter (fun r => r.status == .processing)).length
          + (c3db.filter (fun r => r.status == .pending)).length ∧
      ((restore_tasks c3db 5 100).queue.map (fun t => t.task_id)).Perm
          (c3db.map (fun r => r.task_id)) ∧
      (∀ t ∈ (restore_tasks c3db 5 100).queue, t.status = .pending) ∧
      (restore_tasks c3db 5 100).queue.Pairwise PrioOrder) :=
  ⟨⟨by decide, by decide⟩, C3_recovery c3db 5 100 (by decide) (by decide)⟩

/-- PersistentQueue.update_task_status: rewrite the matching row's status
and updated_at; error_message and result columns are only touched when a
value is supplied, completed_at only when the new status is COMPLETED. -/
def update_task_status (db : List TaskRecord) (id : String)
    (status : TaskStatus) (now : ℚ) (err : Option String)
    (result : Option String) : List TaskRecord :=
  db.map (fun r =>
    if r.task_id == id then
      { r with
        status := status
        updated_at := now
        error_message := if err.isSome then err else r.error_message
        result := if result.isSome then result else r.result
        completed_at :=
          if status = .completed then some now else r.completed_at }
    else r)

/-- The three ways PersistentQueue.add_task can leave the system: normal
return True; the caller parked on a full channel (await queue.put blocks,
no error raised, the unit enters the channel only when space frees); or
return False after the storage write raised (the exception is caught
before the channel is touched). -/
inductive AddOutcome where
  | ok (st : PQState)
  | blocked (st : PQState)
  | storeFailed (st : PQState)
deriving DecidableEq, Repr

/-- PersistentQueue.add_task at one instant: persist the row first
(INSERT OR REPLACE + commit), then append to the delivery channel;
storeOk = false means the database write raised. -/
def add_task (st : PQState) (t : DownloadTask) (storeOk : Bool) :
    AddOutcome :=
  if storeOk then
    let st1 := { st with db := upsert st.db (task_to_record t) }
    if st1.queue.length < st1.max_size then
      .ok { st1 with queue := st1.queue ++ [t] }
    else .blocked st1
  else .storeFailed st

/-- PersistentQueue.get_task: an empty channel times out returning None;
otherwise the channel's front unit is removed, marked PROCESSING in
storage, and handed to the caller together with the updated state. -/
def get_task (st : PQState) (now : ℚ) : Option (DownloadTask × PQState) :=
  match st.queue with
  | [] => none
  | t :: rest =>
    some (t, { st with
      queue := rest
      db := update_task_status st.db t.task_id .processing now none none })

/-- The upserted row is present in the store after the upsert. -/
theorem self_mem_upsert (db : List TaskRecord) (r : TaskRecord) :
    r ∈ upsert db r := by
  unfold upsert
  split_ifs with h
  · obtain ⟨x, hx, hp⟩ := List.any_eq_true.mp h
    exact List.mem_map.mpr ⟨x, hx, by rw [if_pos hp]⟩
  · exact List.mem_append.mpr (Or.inr (List.mem_singleton.mpr rfl))

/-- A FIFO channel state reached by enqueueing a priority-1 unit and then
a priority-5 unit. -/
def c6a : DownloadTask :=
  { task_id := "a", url := "ua", task_type := .video, priority := 1,
    created_at := 0 }

/-- The higher-priority unit enqueued second. -/
def c6b : DownloadTask :=
  { task_id := "b", url := "ub", task_type := .video, priority := 5,
    created_at := 1 }

/-- Fresh empty queue used by the C6 theorems. -/
def c6st0 : PQState := { db := [], queue := [], max_size := 10 }

/-- The queue after enqueueing c6a then c6b. -/
def c6st2 : PQState :=
  { db := [task_to_record c6a, task_to_record c6b],
    queue := [c6a, c6b], max_size := 10 }

/-- C6 (counterexample): the claim that dequeue returns the
highest-priority unit currently in the channel is false: the delivery
channel is a plain FIFO (asyncio.Queue).  After enqueueing a priority-1
unit and then a priority-5 unit, get_task returns the priority-1 unit
while the priority-5 unit is still in the channel. -/
theorem C6_counterexample :
    add_task c6st0 c6a true
        = .ok { db := [task_to_record c6a], queue := [c6a],
                max_size := 10 } ∧
    add_task { db := [task_to_record c6a], queue := [c6a],
               max_size := 10 } c6b true = .ok c6st2 ∧
    c6b ∈ c6st2.queue ∧ c6b.priority = 5 ∧
    (get_task c6st2 2).map (fun p => (p.1.task_id, p.1.priority))
        = some ("a", 1) := by
  exact ⟨by decide, by decide, by decide, by decide, by decide⟩

/-- After update_task_status, every row carrying the updated id holds the
new status. -/
theorem update_task_status_marks (db : List TaskRecord) (id : String)
    (status : TaskStatus) (now : ℚ) (err result : Option String) :
    ∀ r ∈ update_task_status db id status now err result,
      r.task_id = id → r.status = status := by
  intro r hr hid
  obtain ⟨x, hx, hfx⟩ := List.mem_map.mp hr
  by_cases hbeq : (x.task_id == id) = true
  · rw [← hfx]
    simp only [if_pos hbeq]
  · rw [← hfx, if_neg hbeq] at hid
    exact absurd hid (by simpa using hbeq)

/-- C6 (amended): dequeue returns the channel's FIFO front — the
earliest-enqueued unit currently in the channel, not the
highest-priority one — with its stored row stamped PROCESSING in the
state handed back with it; an empty channel yields the NoTask signal
(none) with nothing removed. -/
theorem C6_dequeue_fifo (st : PQState) (now : ℚ) :
    (st.queue = [] → get_task st now = none) ∧
    (∀ t rest, st.queue = t :: rest →
      get_task st now = some (t,
        { st with
          queue := rest
          db := update_task_status st.db t.task_id .processing now
            none none }) ∧
      (∀ r ∈ update_task_status st.db t.task_id .processing now none none,
        r.task_id = t.task_id → r.status = .processing)) := by
  constructor
  · intro hq
    unfold get_task
    rw [hq]
  · intro t rest hq
    constructor
    · unfold get_task
      rw [hq]
    · exact update_task_status_marks st.db t.task_id .processing now
        none none

/-- Witness for C6: the empty queue times out with none; on the two-unit
FIFO state the front unit c6a is returned and marked PROCESSING. -/
theorem C6_dequeue_fifo_witness :
    (c6st0.queue = [] ∧ get_task c6st0 0 = none) ∧
    (c6st2.queue = c6a :: [c6b] ∧
      (get_task c6st2 2 = some (c6a,
        { c6st2 with
          queue := [c6b]
          db := update_task_status c6st2.db c6a.task_id .processing 2
            none none }) ∧
      (∀ r ∈ update_task_status c6st2.db c6a.task_id .processing 2
          none none,
        r.task_id = c6a.task_id → r.status = .processing))) :=
  ⟨⟨rfl, (C6_dequeue_fifo c6st0 0).1 rfl⟩,
    ⟨rfl, (C6_dequeue_fifo c6st2 2).2 c6a [c6b] rfl⟩⟩

/-- C7: enqueue persists the unit's row durably before it can appear in
the delivery channel: a failed storage write reports failure with the
state unchanged and the unit never enters the channel; a successful write
followed by a full channel blocks the caller (no error) with the row
already durable and the channel untouched; and in the normal case the
row is durable and the unit is appended to the channel. -/
theorem C7_enqueue_durability (st : PQState) (t : DownloadTask) :
    (add_task st t false = .storeFailed st) ∧
    (∀ st1, add_task st t true = .ok st1 →
      st1.db = upsert st.db (task_to_record t) ∧
        task_to_record t ∈ st1.db ∧
        st1.queue = st.queue ++ [t] ∧
        st.queue.length < st.max_size) ∧
    (∀ st1, add_task st t true = .blocked st1 →
      st1.db = upsert st.db (task_to_record t) ∧
        task_to_record t ∈ st1.db ∧
        st1.queue = st.queue ∧
        st.max_size ≤ st.queue.length) := by
  refine ⟨rfl, ?_, ?_⟩
  · intro st1 h
    unfold add_task at h
    simp only [if_true] at h
    split_ifs at h with hq
    obtain rfl := (AddOutcome.ok.inj h).symm
    exact ⟨rfl, self_mem_upsert st.db (task_to_record t), rfl, hq⟩
  · intro st1 h
    unfold add_task at h
    simp only [if_true] at h
    split_ifs at h with hq
    obtain rfl := (AddOutcome.blocked.inj h).symm
    exact ⟨rfl, self_mem_upsert st.db (task_to_record t), rfl, by omega⟩

/-- Unit used by the C7 witness. -/
def c7t : DownloadTask :=
  { task_id := "q", url := "uq", task_type := .music, priority := 0 }

/-- Empty queue of capacity 1 for the C7 witness. -/
def c7empty : PQState := { db := [], queue := [], max_size := 1 }

/-- Full queue of capacity 1 for the C7 witness. -/
def c7full : PQState := { db := [], queue := [c7t], max_size := 1 }

/-- Witness for C7: on a capacity-1 queue the failed-store, normal and
blocked cases behave as stated. -/
theorem C7_enqueue_durability_witness :
    (add_task c7empty c7t false = .storeFailed c7empty) ∧
    (add_task c7empty c7t true
        = .ok { db := [task_to_record c7t], queue := [c7t],
                max_size := 1 } ∧
      (({ db := [task_to_record c7t], queue := [c7t],
          max_size := 1 } : PQState).db
          = upsert c7empty.db (task_to_record c7t) ∧
        task_to_record c7t
          ∈ ({ db := [task_to_record c7t], queue := [c7t],
               max_size := 1 } : PQState).db ∧
        ({ db := [task_to_record c7t], queue := [c7t],
           max_size := 1 } : PQState).queue = c7empty.queue ++ [c7t] ∧
        c7empty.queue.length < c7empty.max_size)) ∧
    (add_task c7full c7t true
        = .blocked { db := [task_to_record c7t], queue := [c7t],
                     max_size := 1 } ∧
      (({ db := [task_to_record c7t], queue := [c7t],
          max_size := 1 } : PQState).db
          = upsert c7full.db (task_to_record c7t) ∧
        task_to_record c7t
          ∈ ({ db := [task_to_record c7t], queue := [c7t],
               max_size := 1 } : PQState).db ∧
        ({ db := [task_to_record c7t], queue := [c7t],
           max_size := 1 } : PQState).queue = c7full.queue ∧
        c7full.max_size ≤ c7full.queue.length)) :=
  ⟨(C7_enqueue_durability c7empty c7t).1,
    ⟨by decide, (C7_enqueue_durability c7empty c7t).2.1 _ (by decide)⟩,
    ⟨by decide, (C7_enqueue_durability c7full c7t).2.2 _ (by decide)⟩⟩

/-! ## Orchestrator (core/orchestrator.py) -/

/-- In-memory task collections of DownloadOrchestrator: the explicitly
sorted priority list, the FIFO pending channel (asyncio.Queue, head at
the front), the active dict (modelled as a list of tasks with their ids),
the completed and failed lists, and the priority_queue config flag. -/
structure OrchState where
  priority_tasks : List DownloadTask
  pending_queue : List DownloadTask
  active_tasks : List DownloadTask
  completed_tasks : List DownloadTask
  failed_tasks : List DownloadTask
  priority_queue : Bool
deriving DecidableEq, Repr

/-- One step of the stable insertion underlying Python's
list.sort(key=priority, reverse=True): the inserted element goes before
the first element whose priority is not greater, so that elements already
in the list keep their relative order among equal priorities. -/
def insertPrio (x : DownloadTask) : List DownloadTask → List DownloadTask
  | [] => [x]
  | y :: ys => if y.priority ≤ x.priority then x :: y :: ys
      else y :: insertPrio x ys

/-- Python's list.sort(key=lambda t: t.priority, reverse=True).  list.sort
is a stable descending sort by priority; a stable sort by a given key is
extensionally unique, so this stable insertion sort computes the same
list. -/
def sortPrio : List DownloadTask → List DownloadTask
  | [] => []
  | x :: xs => insertPrio x (sortPrio xs)

/-- DownloadOrchestrator.add_task, after the task object is built: with
the priority-queue feature on and a strictly positive priority the task
is appended to priority_tasks and the list re-sorted; otherwise it is put
on the FIFO pending channel. -/
def orch_add_task (st : OrchState) (t : DownloadTask) : OrchState :=
  if st.priority_queue = true ∧ 0 < t.priority then
    { st with priority_tasks := sortPrio (st.priority_tasks ++ [t]) }
  else { st with pending_queue := st.pending_queue ++ [t] }

/-- DownloadOrchestrator._get_next_task: pop the priority list's front if
non-empty, else poll the FIFO channel, else give up (None). -/
def get_next_task (st : OrchState) : Option (DownloadTask × OrchState) :=
  match st.priority_tasks with
  | t :: rest => some (t, { st with priority_tasks := rest })
  | [] =>
    match st.pending_queue with
    | t :: rest => some (t, { st with pending_queue := rest })
    | [] => none

/-- DownloadOrchestrator.get_task_status: the lookup consults the active
dict, the completed list, the failed list and the priority list — never
the FIFO pending channel. -/
def orch_get_task_status (st : OrchState) (id : String) :
    Option TaskStatus :=
  match st.active_tasks.find? (fun t => t.task_id == id) with
  | some t => some t.status
  | none =>
    if st.completed_tasks.any (fun t => t.task_id == id) then
      some .completed
    else if st.failed_tasks.any (fun t => t.task_id == id) then
      some .failed
    else if st.priority_tasks.any (fun t => t.task_id == id) then
      some .pending
    else none

/-- The stable insertion only rearranges. -/
theorem insertPrio_perm (x : DownloadTask) : ∀ l : List DownloadTask,
    (insertPrio x l).Perm (x :: l) := by
  intro l
  induction l with
  | nil => exact List.Perm.refl _
  | cons y ys ih =>
    unfold insertPrio
    split_ifs
    · exact List.Perm.refl _
    · exact (List.Perm.cons y ih).trans (List.Perm.swap x y ys)

/-- The stable sort only rearranges. -/
theorem sortPrio_perm : ∀ l : List DownloadTask, (sortPrio l).Perm l := by
  intro l
  induction l with
  | nil => exact List.Perm.refl _
  | cons x xs ih =>
    exact (insertPrio_perm x (sortPrio xs)).trans (List.Perm.cons x ih)

/-- Inserting into a priority-descending list keeps it
priority-descending. -/
theorem insertPrio_pairwise_ge (x : DownloadTask) :
    ∀ l : List DownloadTask,
    l.Pairwise (fun a b => b.priority ≤ a.priority) →
    (insertPrio x l).Pairwise (fun a b => b.priority ≤ a.priority) := by
  intro l
  induction l with
  | nil => intro _; simp [insertPrio]
  | cons y ys ih =>
    intro hl
    rw [List.pairwise_cons] at hl
    obtain ⟨hy, hys⟩ := hl
    unfold insertPrio
    split_ifs with hxy
    · refine List.pairwise_cons.mpr ⟨?_, List.pairwise_cons.mpr ⟨hy, hys⟩⟩
      intro z hz
      rcases List.mem_cons.mp hz with heq | hz
      · rw [heq]; exact hxy
      · exact le_trans (hy z hz) hxy
    · refine List.pairwise_cons.mpr ⟨?_, ih hys⟩
      intro z hz
      rcases List.mem_cons.mp ((insertPrio_perm x ys).mem_iff.mp hz)
          with heq | hz
      · rw [heq]; omega
      · exact hy z hz

/-- Inserting an element tie-compatible with the whole list keeps the
equal-priority creation-time discipline: the element only ends up before
strictly higher priorities. -/
theorem insertPrio_pairwise_tie (x : DownloadTask) :
    ∀ l : List DownloadTask,
    l.Pairwise (fun a b =>
      a.priority = b.priority → a.created_at ≤ b.created_at) →
    (∀ y ∈ l, x.priority = y.priority → x.created_at ≤ y.created_at) →
    (insertPrio x l).Pairwise (fun a b =>
      a.priority = b.priority → a.created_at ≤ b.created_at) := by
  intro l
  induction l with
  | nil => intro _ _; simp [insertPrio]
  | cons y ys ih =>
    intro hl hall
    rw [List.pairwise_cons] at hl
    obtain ⟨hy, hys⟩ := hl
    unfold insertPrio
    split_ifs with hxy
    · refine List.pairwise_cons.mpr ⟨?_, List.pairwise_cons.mpr ⟨hy, hys⟩⟩
      intro z hz
      rcases List.mem_cons.mp hz with heq | hz
      · rw [heq]
        exact hall y (List.mem_cons_self y ys)
      · exact hall z (List.mem_cons_of_mem y hz)
    · refine List.pairwise_cons.mpr ⟨?_, ?_⟩
      · intro z hz
        rcases List.mem_cons.mp ((insertPrio_perm x ys).mem_iff.mp hz)
            with heq | hz
        · rw [heq]
          intro hpe
          omega
        · exact hy z hz
      · exact ih hys fun z hz => hall z (List.mem_cons_of_mem y hz)

/-- The stable sort always yields a priority-descending list. -/
theorem sortPrio_pairwise_ge : ∀ l : List DownloadTask,
    (sortPrio l).Pairwise (fun a b => b.priority ≤ a.priority) := by
  intro l
  induction l with
  | nil => simp [sortPrio]
  | cons x xs ih => exact insertPrio_pairwise_ge x (sortPrio xs) ih

/-- Stability of the sort: if equal priorities appear in creation order
in the input, they appear in creation order in the output. -/
theorem sortPrio_pairwise_tie : ∀ l : List DownloadTask,
    l.Pairwise (fun a b =>
      a.priority = b.priority → a.created_at ≤ b.created_at) →
    (sortPrio l).Pairwise (fun a b =>
      a.priority = b.priority → a.created_at ≤ b.created_at) := by
  intro l
  induction l with
  | nil => intro _; simp [sortPrio]
  | cons x xs ih =>
    intro hl
    rw [List.pairwise_cons] at hl
    obtain ⟨hx, hxs⟩ := hl
    exact insertPrio_pairwise_tie x (sortPrio xs) (ih hxs)
      fun z hz => hx z ((sortPrio_perm xs).mem_iff.mp hz)

/-- A priority-descending list whose equal priorities sit in creation
order is ordered by PrioOrder. -/
theorem pairwise_prioOrder_of_ge_tie (l : List DownloadTask)
    (hge : l.Pairwise (fun a b => b.priority ≤ a.priority))
    (htie : l.Pairwise (fun a b =>
      a.priority = b.priority → a.created_at ≤ b.created_at)) :
    l.Pairwise PrioOrder := by
  refine (hge.and htie).imp ?_
  intro a b hab
  obtain ⟨h1, h2⟩ := hab
  rcases eq_or_lt_of_le h1 with heq | hlt
  · exact Or.inr ⟨heq.symm, h2 heq.symm⟩
  · exact Or.inl hlt

instance (a b : DownloadTask) : Decidable (PrioOrder a b) := by
  unfold PrioOrder
  infer_instance

/-- Fresh orchestrator state with the priority-queue feature enabled. -/
def c9st0 : OrchState :=
  { priority_tasks := [], pending_queue := [], active_tasks := [],
    completed_tasks := [], failed_tasks := [], priority_queue := true }

/-- A unit submitted with a negative — hence nonzero — priority. -/
def c9neg : DownloadTask :=
  { task_id := "n", url := "un", task_type := .video, priority := -1 }

/-- C9 (counterexample): the claim that every nonzero-priority unit goes
to the priority-sorted list is false: add_task tests priority > 0, so a
unit with the nonzero priority -1 is routed to the FIFO channel and the
priority list stays empty. -/
theorem C9_counterexample :
    c9neg.priority ≠ 0 ∧
    orch_add_task c9st0 c9neg = { c9st0 with pending_queue := [c9neg] } := by
  exact ⟨by decide, by decide⟩

/-- C9 (amended): with the priority-queue feature enabled, a unit with
strictly positive priority goes to the explicitly sorted priority list
and any other unit — priority 0, and also negative priorities — goes to
the FIFO channel; a worker's request is served from the priority list
whenever it is non-empty; adding a fresh unit (created no earlier than
the units already queued at its priority) preserves the list's
descending-priority, creation-time-tie order, and the unit served from a
so-ordered non-empty list is of maximal priority, earliest-created among
its ties. -/
theorem C9_priority_lanes :
    (∀ (st : OrchState) (t : DownloadTask),
      st.priority_queue = true → 0 < t.priority →
      orch_add_task st t
        = { st with priority_tasks := sortPrio (st.priority_tasks ++ [t]) }) ∧
    (∀ (st : OrchState) (t : DownloadTask), t.priority ≤ 0 →
      orch_add_task st t
        = { st with pending_queue := st.pending_queue ++ [t] }) ∧
    (∀ (st : OrchState) (t : DownloadTask) (rest : List DownloadTask),
      st.priority_tasks = t :: rest →
      get_next_task st = some (t, { st with priority_tasks := rest })) ∧
    (∀ (st : OrchState) (t : DownloadTask),
      st.priority_queue = true → 0 < t.priority →
      st.priority_tasks.Pairwise PrioOrder →
      (∀ y ∈ st.priority_tasks,
        y.priority = t.priority → y.created_at ≤ t.created_at) →
      (orch_add_task st t).priority_tasks.Pairwise PrioOrder) ∧
    (∀ (st : OrchState) (t : DownloadTask) (rest : List DownloadTask),
      st.priority_tasks = t :: rest →
      st.priority_tasks.Pairwise PrioOrder →
      ∀ y ∈ rest, PrioOrder t y) := by
  refine ⟨?_, ?_, ?_, ?_, ?_⟩
  · intro st t hpq hpos
    unfold orch_add_task
    rw [if_pos ⟨hpq, hpos⟩]
  · intro st t hnonpos
    unfold orch_add_task
    rw [if_neg (by omega)]
  · intro st t rest hq
    unfold get_next_task
    rw [hq]
  · intro st t hpq hpos hsorted hfresh
    unfold orch_add_task
    rw [if_pos ⟨hpq, hpos⟩]
    simp only
    have htie : (st.priority_tasks ++ [t]).Pairwise (fun a b =>
        a.priority = b.priority → a.created_at ≤ b.created_at) := by
      rw [List.pairwise_append]
      refine ⟨hsorted.imp ?_, List.pairwise_singleton _ _, ?_⟩
      · intro a b hab hpe
        rcases hab with h | h
        · omega
        · exact h.2
      · intro a ha b hb
        rw [List.mem_singleton.mp hb]
        exact hfresh a ha
    exact pairwise_prioOrder_of_ge_tie _ (sortPrio_pairwise_ge _)
      (sortPrio_pairwise_tie _ htie)
  · intro st t rest hq hsorted
    rw [hq, List.pairwise_cons] at hsorted
    exact hsorted.1

/-- Two queued priority-lane units for the C9 witness, ordered. -/
def c9hi : DownloadTask :=
  { task_id := "h", url := "uh", task_type := .video, priority := 7,
    created_at := 0 }

/-- Lower-priority second unit for the C9 witness. -/
def c9lo : DownloadTask :=
  { task_id := "l", url := "ul", task_type := .video, priority := 2,
    created_at := 1 }

/-- A fresh unit added in the C9 witness. -/
def c9new : DownloadTask :=
  { task_id := "w", url := "uw", task_type := .video, priority := 7,
    created_at := 2 }

/-- Orchestrator state with two ordered priority-lane units. -/
def c9st2 : OrchState :=
  { priority_tasks := [c9hi, c9lo], pending_queue := [], active_tasks := [],
    completed_tasks := [], failed_tasks := [], priority_queue := true }

/-- Witness for C9: on a concrete enabled state, positive-priority
routing, FIFO routing of priority 0, priority-lane preference, invariant
preservation on adding a fresh priority-7 unit, and head maximality all
hold. -/
theorem C9_priority_lanes_witness :
    (c9st2.priority_queue = true ∧ 0 < c9new.priority ∧
      orch_add_task c9st2 c9new
        = { c9st2 with
            priority_tasks := sortPrio (c9st2.priority_tasks ++ [c9new]) }) ∧
    (c7t.priority ≤ 0 ∧
      orch_add_task c9st2 c7t
        = { c9st2 with pending_queue := c9st2.pending_queue ++ [c7t] }) ∧
    (c9st2.priority_tasks = c9hi :: [c9lo] ∧
      get_next_task c9st2
        = some (c9hi, { c9st2 with priority_tasks := [c9lo] })) ∧
    ((orch_add_task c9st2 c9new).priority_tasks.Pairwise PrioOrder) ∧
    (∀ y ∈ [c9lo], PrioOrder c9hi y) :=
  ⟨⟨rfl, by decide,
      C9_priority_lanes.1 c9st2 c9new rfl (by decide)⟩,
    ⟨by decide, C9_priority_lanes.2.1 c9st2 c7t (by decide)⟩,
    ⟨rfl, C9_priority_lanes.2.2.1 c9st2 c9hi [c9lo] rfl⟩,
    C9_priority_lanes.2.2.2.1 c9st2 c9new rfl (by decide)
      (by decide) (by decide),
    C9_priority_lanes.2.2.2.2 c9st2 c9hi [c9lo] rfl (by decide)⟩

/-- A unit sitting only in the FIFO pending channel. -/
def c10t : DownloadTask :=
  { task_id := "f", url := "uf", task_type := .video, priority := 0 }

/-- Orchestrator state whose only trace of c10t is the FIFO channel. -/
def c10st : OrchState :=
  { priority_tasks := [], pending_queue := [c10t], active_tasks := [],
    completed_tasks := [], failed_tasks := [], priority_queue := true }

/-- C10: the status lookup searches only the active, completed, failed
and priority-list collections, so a unit whose id appears in none of them
resolves to none even while it sits in the FIFO pending channel awaiting
dispatch — indistinguishable from a wholly unknown id. -/
theorem C10_fifo_invisible (st : OrchState) (t : DownloadTask)
    (_hfifo : t ∈ st.pending_queue)
    (h1 : ∀ x ∈ st.active_tasks, x.task_id ≠ t.task_id)
    (h2 : ∀ x ∈ st.completed_tasks, x.task_id ≠ t.task_id)
    (h3 : ∀ x ∈ st.failed_tasks, x.task_id ≠ t.task_id)
    (h4 : ∀ x ∈ st.priority_tasks, x.task_id ≠ t.task_id) :
    orch_get_task_status st t.task_id = none := by
  unfold orch_get_task_status
  have hfind : st.active_tasks.find? (fun x => x.task_id == t.task_id)
      = none := by
    rw [List.find?_eq_none]
    intro x hx
    simpa using h1 x hx
  rw [hfind]
  have hany : ∀ (l : List DownloadTask),
      (∀ x ∈ l, x.task_id ≠ t.task_id) →
      (l.any (fun x => x.task_id == t.task_id)) = false := by
    intro l hl
    rw [← Bool.not_eq_true, List.any_eq_true]
    rintro ⟨x, hx, hbeq⟩
    exact hl x hx (by simpa using hbeq)
  rw [if_neg (by rw [hany _ h2]; exact Bool.false_ne_true),
    if_neg (by rw [hany _ h3]; exact Bool.false_ne_true),
    if_neg (by rw [hany _ h4]; exact Bool.false_ne_true)]

/-- Witness for C10: the concrete state holding c10t only in the FIFO
channel reports no status for it. -/
theorem C10_fifo_invisible_witness :
    (c10t ∈ c10st.pending_queue ∧
      (∀ x ∈ c10st.active_tasks, x.task_id ≠ c10t.task_id) ∧
      (∀ x ∈ c10st.completed_tasks, x.task_id ≠ c10t.task_id) ∧
      (∀ x ∈ c10st.failed_tasks, x.task_id ≠ c10t.task_id) ∧
      (∀ x ∈ c10st.priority_tasks, x.task_id ≠ c10t.task_id)) ∧
    orch_get_task_status c10st c10t.task_id = none :=
  ⟨⟨by decide, by decide, by decide, by decide, by decide⟩,
    C10_fifo_invisible c10st c10t (by decide) (by decide) (by decide)
      (by decide) (by decide)⟩

end Douyin
